import Mathlib

/-!
Shallow embedding of the py-updater update engine (`src/updater.py`) and
proofs of the specification claims about it.

The embedding models:
* `parse_semver` / `compare_versions` — the version comparator;
* `get_latest_release` / `find_asset`  — release selection;
* `verify_sha256_from_file`            — digest verification (the SHA-256
  digest of the downloaded file is an abstract 64-hex-char input, since the
  hash function itself is opaque to the claims);
* `rollback_from_backup`               — rollback, over a path-indexed
  filesystem abstraction;
* `run_update`                         — the orchestrator, as a pure function
  of an environment recording the release feed, the persisted version file,
  and the success/failure of each fallible effect.
-/

namespace Updater

/-- A parsed version: the Python tuple `(major, minor, patch)` produced by
`parse_semver`, with `(-1, -1, -1)` for non-semver input. -/
abbrev SemVer := Int × Int × Int

/-- Python tuple `<` on 3-tuples of ints (lexicographic). -/
def tupleLt : SemVer → SemVer → Bool
  | (a1, b1, c1), (a2, b2, c2) =>
    decide (a1 < a2) ||
      (decide (a1 = a2) && (decide (b1 < b2) || (decide (b1 = b2) && decide (c1 < c2))))

/-- Numeric value of a digit run, as Python `int(...)` of the matched group. -/
def digitsVal (ds : List Char) : Nat :=
  ds.foldl (fun n c => 10 * n + (c.toNat - '0'.toNat)) 0

/-- The tail permitted after the numeric components by
`(?:[-+].*)?$`: end of string, or a `-`/`+` followed by anything. -/
def tailOk : List Char → Bool
  | [] => true
  | c :: _ => decide (c = '-') || decide (c = '+')

/-- Match of `^(\d+)\.(\d+)\.(\d+)(?:[-+].*)?$` (regex `\d` modelled as an
ASCII digit; each `\d+` is a maximal digit run, which is what the greedy
regex matches since `.`/`-`/`+` are not digits). -/
def matchMMP (cs : List Char) : Option SemVer :=
  let (d1, r1) := cs.span Char.isDigit
  if d1.isEmpty then none else
  match r1 with
  | '.' :: r2 =>
    let (d2, r3) := r2.span Char.isDigit
    if d2.isEmpty then none else
    match r3 with
    | '.' :: r4 =>
      let (d3, r5) := r4.span Char.isDigit
      if d3.isEmpty then none else
      if tailOk r5 then some ((digitsVal d1 : Int), (digitsVal d2 : Int), (digitsVal d3 : Int))
      else none
    | _ => none
  | _ => none

/-- Match of the looser `^(\d+)\.(\d+)(?:[-+].*)?$`. -/
def matchMM (cs : List Char) : Option (Int × Int) :=
  let (d1, r1) := cs.span Char.isDigit
  if d1.isEmpty then none else
  match r1 with
  | '.' :: r2 =>
    let (d2, r3) := r2.span Char.isDigit
    if d2.isEmpty then none else
    if tailOk r3 then some ((digitsVal d1 : Int), (digitsVal d2 : Int)) else none
  | _ => none

/-- Body of `parse_semver` after the optional leading `"v"` has been
dealt with: full semver, else `major.minor` with patch 0, else
`(-1, -1, -1)` ("push very low"). -/
def parseCore (cs : List Char) : SemVer :=
  match matchMMP cs with
  | some v => v
  | none =>
    match matchMM cs with
    | some (a, b) => (a, b, 0)
    | none => (-1, -1, -1)

/-- `parse_semver` on the character list: `if s.startswith("v"): s = s[1:]`,
then the regex matches. -/
def parseSemverList : List Char → SemVer
  | 'v' :: rest => parseCore rest
  | cs => parseCore cs

/-- `parse_semver(s)` from `src/updater.py`. -/
def parse_semver (s : String) : SemVer :=
  parseSemverList s.data

/-- `compare_versions(a, b)`: `(pa > pb) - (pa < pb)` with Python booleans
coerced to ints. -/
def compare_versions (a b : String) : Int :=
  let pa := parse_semver a
  let pb := parse_semver b
  (if tupleLt pb pa then 1 else 0) - (if tupleLt pa pb then 1 else 0)

-- ---------- GitHub release selection ----------

/-- A release asset: `name` plus download URL. -/
structure Asset where
  name : String
  browser_download_url : String
deriving DecidableEq, Repr

/-- A release object as consumed from the API: `tag_name` (possibly absent),
`draft`, `prerelease`, `assets`. -/
structure Release where
  tag_name : Option String
  draft : Bool
  prerelease : Bool
  assets : List Asset
deriving DecidableEq, Repr

/-- The sort key used by `get_latest_release`:
`parse_semver(r.get("tag_name") or "")` (a `None` tag and an empty tag both
yield `""`). -/
def relKey (r : Release) : SemVer :=
  parse_semver (r.tag_name.getD "")

/-- The filtered `candidates` list: drafts dropped always, prereleases
dropped unless `include_prereleases`. -/
def releaseCandidates (releases : List Release) (include_prereleases : Bool) : List Release :=
  releases.filter (fun r => !r.draft && (include_prereleases || !r.prerelease))

/-- Comparison realising `candidates.sort(key=..., reverse=True)`:
`r1` may precede `r2` iff its key is not smaller. -/
def relDesc (r1 r2 : Release) : Bool :=
  !tupleLt (relKey r1) (relKey r2)

/-- `get_latest_release` (network layer abstracted away: `releases` is the
JSON list the API returned): filter, bail out on empty, sort by semver tag
descending, take the first element. -/
def get_latest_release (releases : List Release) (include_prereleases : Bool) : Option Release :=
  let candidates := releaseCandidates releases include_prereleases
  if candidates.isEmpty then none
  else (candidates.mergeSort relDesc).head?

/-- `find_asset`: first asset whose `name` equals `asset_name` exactly. -/
def find_asset (release : Release) (asset_name : String) : Option Asset :=
  release.assets.find? (fun a => a.name = asset_name)

-- ---------- Digest verification ----------

/-- The regex character class `[A-Fa-f0-9]`. -/
def isHexChar (c : Char) : Bool :=
  ('A' ≤ c && c ≤ 'F') || ('a' ≤ c && c ≤ 'f') || ('0' ≤ c && c ≤ '9')

/-- If the text starts with 64 hex characters, the matched window. -/
def hexWindow (cs : List Char) : Option (List Char) :=
  let w := cs.take 64
  if w.length = 64 && w.all isHexChar then some w else none

/-- Leftmost match of `re.search(r"([A-Fa-f0-9]{64})", txt)`: try each start
position from the left. -/
def findHex64 : List Char → Option (List Char)
  | [] => none
  | c :: cs =>
    match hexWindow (c :: cs) with
    | some w => some w
    | none => findHex64 cs

/-- Python `str.strip()` (default whitespace) on the character list. -/
def pyStrip (cs : List Char) : List Char :=
  ((cs.dropWhile Char.isWhitespace).reverse.dropWhile Char.isWhitespace).reverse

/-- Outcome of `verify_sha256_from_file`: success, the SHA-256-mismatch
`ValueError` (carrying expected and actual digests), or the
invalid-format `ValueError`. -/
inductive VerifyResult where
  | ok
  | mismatch (expected actual : String)
  | formatError
deriving DecidableEq, Repr

/-- `verify_sha256_from_file`, with file I/O abstracted: `txt` is the content
of the `.sha256` descriptor and `actual` the hex digest computed by
`sha256_file` on the asset (always 64 lowercase hex characters; the hash
function itself is opaque to the claims). The descriptor is stripped, the
first 64-hex-char token extracted and lowercased, and compared to `actual`. -/
def verify_sha256_from_text (txt actual : String) : VerifyResult :=
  match findHex64 (pyStrip txt.data) with
  | none => .formatError
  | some w =>
    let expected := String.mk (w.map Char.toLower)
    if actual = expected then .ok else .mismatch expected actual

/-- Substring test (`pat` occurs contiguously in the text), used both for the
`in` checks of `norm_os` and to state containment claims. -/
def startsWithList : List Char → List Char → Bool
  | [], _ => true
  | _ :: _, [] => false
  | p :: ps, c :: cs => p = c && startsWithList ps cs

def containsSub (pat : List Char) : List Char → Bool
  | [] => pat.isEmpty
  | c :: cs => startsWithList pat (c :: cs) || containsSub pat cs

-- ---------- Platform normalisation and asset-name templating ----------

/-- Python `str.lower()` (characterwise; coincides with `str.lower` on the
ASCII platform strings involved). -/
def pyLower (s : String) : String :=
  ⟨s.data.map Char.toLower⟩

/-- `norm_os()`, parameterised by the `platform.system()` string it reads. -/
def norm_os (system : String) : String :=
  let s := pyLower system
  if containsSub "windows".data s.data then "windows"
  else if containsSub "darwin".data s.data || containsSub "mac".data s.data then "macos"
  else "linux"

/-- `norm_arch()`, parameterised by the `platform.machine()` string. -/
def norm_arch (machine : String) : String :=
  let m := pyLower machine
  if m = "amd64" ∨ m = "x86_64" ∨ m = "x64" then "x64"
  else if m = "aarch64" ∨ m = "arm64" then "arm64"
  else if m = "armv7l" ∨ m = "armv7" ∨ m = "arm32" ∨ m = "arm" then "armv7"
  else if m = "i386" ∨ m = "i686" ∨ m = "x86" then "x86"
  else m

/-- `asset_pattern.format(app=..., os=..., arch=...)`: `str.format` scans the
template left to right and substitutes each placeholder field with the
corresponding value (substituted text is not re-scanned). -/
def formatList (app os arch : List Char) : List Char → List Char
  | [] => []
  | '\x7b' :: 'a' :: 'p' :: 'p' :: '\x7d' :: rest => app ++ formatList app os arch rest
  | '\x7b' :: 'o' :: 's' :: '\x7d' :: rest => os ++ formatList app os arch rest
  | '\x7b' :: 'a' :: 'r' :: 'c' :: 'h' :: '\x7d' :: rest => arch ++ formatList app os arch rest
  | c :: cs => c :: formatList app os arch cs

def formatPattern (pat app os arch : String) : String :=
  ⟨formatList app.data os.data arch.data pat.data⟩

-- ---------- The persisted version record ----------

/-- Lookup in the JSON object of `version.json`, modelled as an association
list (Python dicts have unique keys; `dict.get` reads the entry). -/
def lookupA : List (String × String) → String → Option String
  | [], _ => none
  | (k, v) :: t, key => if k = key then some v else lookupA t key

/-- `d[key] = v` on the record: replace in place, or append a new entry. -/
def setKey : List (String × String) → String → String → List (String × String)
  | [], key, v => [(key, v)]
  | (k, w) :: t, key, v => if k = key then (key, v) :: t else (k, w) :: setKey t key v

/-- Python `or` with a string default: `None` and `""` both fall back. -/
def orDefault (o : Option String) (d : String) : String :=
  match o with
  | none => d
  | some s => if s = "" then d else s

/-- `tag.lstrip("v")`: drop every leading `v`. -/
def lstripV (s : String) : String :=
  ⟨s.data.dropWhile (fun c => c = 'v')⟩

-- ---------- The orchestrator ----------

/-- The `FileNotFoundError` raised before the `try` block (it propagates to
the caller): the attempted asset name plus the names of the release's
actual assets. -/
inductive UpdError where
  | notFound (asset_name : String) (available : List String)
deriving DecidableEq, Repr

/-- How a run of `run_update` ended: a returned boolean (`True` only on a
full install), or a raised exception. -/
inductive RunRet where
  | returned (installed : Bool)
  | raised (e : UpdError)
deriving DecidableEq, Repr

/-- Which exit path of `run_update` was taken. -/
inductive Outcome where
  | noRelease
  | skipOlder
  | upToDate
  | assetMissing
  | dryRun
  | failDownload
  | failShaDownload
  | failVerify
  | failExtract
  | failStage
  | failSwap
  | installed
deriving DecidableEq, Repr

/-- Environment of one orchestration run: the platform strings, the release
list the API returns, the persisted version file (`none` = missing or
unreadable), and the fate of each fallible effect (downloads, extraction,
staging copy, the rename swap and its copy fallback), plus the content of
the downloaded digest descriptor and the digest of the downloaded asset. -/
structure Env where
  system : String
  machine : String
  releases : List Release
  vfile : Option (List (String × String))
  downloadOk : Bool
  shaDownloadOk : Bool
  shaText : String
  assetDigest : String
  extractOk : Bool
  stageOk : Bool
  swapRenameOk : Bool
  swapFallbackOk : Bool
deriving DecidableEq, Repr

/-- The arguments of `run_update` that the claims depend on. -/
structure Args where
  app_name : String
  asset_pattern : String
  include_prereleases : Bool
  allow_downgrade : Bool
  dry_run : Bool
deriving DecidableEq, Repr

/-- Observable result of a run: exit path, return/raise value, whether a
download was attempted, whether the swap fully succeeded, whether the
version file was rewritten, and the version file's content afterwards. -/
structure RunResult where
  outcome : Outcome
  ret : RunRet
  downloadAttempted : Bool
  swapSucceeded : Bool
  wroteVersion : Bool
  vfileAfter : Option (List (String × String))
deriving DecidableEq, Repr

/-- `run_update`, with effects made explicit through `Env`. Control flow
mirrors the source line by line: read `version.json` (default `{}`),
select the release, compare versions, resolve the asset (raising
`FileNotFoundError` when absent), honour `--dry-run`, then download,
optionally verify, extract, stage, swap (rename, falling back to
copy+move), and only then rewrite `version.json` by merging
`version = tag.lstrip("v")` into the previously read record
(`write_json_atomic`). Every exception inside the `try` block is caught
and turns into a `False` return. -/
def run_update (env : Env) (a : Args) : RunResult :=
  let os_id := norm_os env.system
  let arch_id := norm_arch env.machine
  let asset_name := formatPattern a.asset_pattern a.app_name os_id arch_id
  let vdata := env.vfile.getD []
  let current_version := (lookupA vdata "version").getD "0.0.0"
  match get_latest_release env.releases a.include_prereleases with
  | none =>
    { outcome := .noRelease, ret := .returned false, downloadAttempted := false,
      swapSucceeded := false, wroteVersion := false, vfileAfter := env.vfile }
  | some release =>
    let tag := orDefault release.tag_name "0.0.0"
    let cmp := compare_versions tag current_version
    if cmp < 0 ∧ a.allow_downgrade = false then
      { outcome := .skipOlder, ret := .returned false, downloadAttempted := false,
        swapSucceeded := false, wroteVersion := false, vfileAfter := env.vfile }
    else if cmp = 0 then
      { outcome := .upToDate, ret := .returned false, downloadAttempted := false,
        swapSucceeded := false, wroteVersion := false, vfileAfter := env.vfile }
    else
      match find_asset release asset_name with
      | none =>
        { outcome := .assetMissing,
          ret := .raised (.notFound asset_name (release.assets.map (fun x => x.name))),
          downloadAttempted := false, swapSucceeded := false, wroteVersion := false,
          vfileAfter := env.vfile }
      | some _asset =>
        let sha_asset := find_asset release (asset_name ++ ".sha256")
        if a.dry_run then
          { outcome := .dryRun, ret := .returned false, downloadAttempted := false,
            swapSucceeded := false, wroteVersion := false, vfileAfter := env.vfile }
        else if env.downloadOk = false then
          { outcome := .failDownload, ret := .returned false, downloadAttempted := true,
            swapSucceeded := false, wroteVersion := false, vfileAfter := env.vfile }
        else
          let shaStep : Option Outcome :=
            match sha_asset with
            | some _ =>
              if env.shaDownloadOk = false then some .failShaDownload
              else
                match verify_sha256_from_text env.shaText env.assetDigest with
                | .ok => none
                | _ => some .failVerify
            | none => none
          match shaStep with
          | some o =>
            { outcome := o, ret := .returned false, downloadAttempted := true,
              swapSucceeded := false, wroteVersion := false, vfileAfter := env.vfile }
          | none =>
            if env.extractOk = false then
              { outcome := .failExtract, ret := .returned false, downloadAttempted := true,
                swapSucceeded := false, wroteVersion := false, vfileAfter := env.vfile }
            else if env.stageOk = false then
              { outcome := .failStage, ret := .returned false, downloadAttempted := true,
                swapSucceeded := false, wroteVersion := false, vfileAfter := env.vfile }
            else if env.swapRenameOk = false ∧ env.swapFallbackOk = false then
              { outcome := .failSwap, ret := .returned false, downloadAttempted := true,
                swapSucceeded := false, wroteVersion := false, vfileAfter := env.vfile }
            else
              let new_vdata := setKey vdata "version" (lstripV tag)
              { outcome := .installed, ret := .returned true, downloadAttempted := true,
                swapSucceeded := true, wroteVersion := true, vfileAfter := some new_vdata }

/-- The local version `run_update` starts from:
`read_json(version_file, default={}).get("version", "0.0.0")`. -/
def localVersion (env : Env) : String :=
  (lookupA (env.vfile.getD []) "version").getD "0.0.0"

/-- The tag of the chosen release, with the `or "0.0.0"` fallback. -/
def candidateTag (env : Env) (a : Args) : Option String :=
  (get_latest_release env.releases a.include_prereleases).map
    (fun r => orDefault r.tag_name "0.0.0")

/-- The expected platform asset name of a run. -/
def assetNameOf (env : Env) (a : Args) : String :=
  formatPattern a.asset_pattern a.app_name (norm_os env.system) (norm_arch env.machine)

-- ---------- Rollback over a path-indexed filesystem abstraction ----------

/-- A filesystem: each path holds a directory tree (abstracted as an
identifier), or nothing. -/
def FsState := String → Option Nat

/-- `shutil.rmtree(p, ignore_errors=True)`. -/
def removeTree (fs : FsState) (p : String) : FsState :=
  fun q => if q = p then none else fs q

/-- `os.rename(src, dst)` (precondition `src` exists is checked by callers). -/
def renamePath (fs : FsState) (src dst : String) : FsState :=
  fun q => if q = dst then fs src else if q = src then none else fs q

/-- `rollback_from_backup(backup_dir, app_dir)`: delete `app_dir` if it
exists, then rename `backup_dir` into place if it exists. -/
def rollback_from_backup (backup_dir app_dir : String) (fs : FsState) : FsState :=
  let fs1 := if (fs app_dir).isSome then removeTree fs app_dir else fs
  if (fs1 backup_dir).isSome then renamePath fs1 backup_dir app_dir else fs1

-- ---------- Shared helper lemmas ----------

-- ---------- Concrete fixtures ----------

/-- A filesystem whose live app directory holds a tree but whose backup
path is empty. -/
def fsLiveOnly : FsState :=
  fun p => if p = "app" then some 1 else none

/-- A possible file digest: 64 lowercase hex characters, all `a`. -/
def dA : String := String.mk (List.replicate 64 'a')

/-- A different 64-hex token, all `b`. -/
def dB : String := String.mk (List.replicate 64 'b')

/-- A stable, non-draft release carrying the matching platform asset,
used as a concrete fixture. -/
def relX : Release :=
  { tag_name := some "v1.2.0", draft := false, prerelease := false,
    assets := [{ name := "demo-linux-x64.zip", browser_download_url := "u1" }] }

/-- A release lacking the matching platform asset. -/
def relNoAsset : Release :=
  { tag_name := some "v1.2.0", draft := false, prerelease := false,
    assets := [{ name := "other.zip", browser_download_url := "u2" }] }

/-- A fully healthy environment: one stable release `relX`, a readable
version file at `1.0.0`, and every effect succeeding. -/
def envX : Env :=
  { system := "Linux", machine := "x86_64", releases := [relX],
    vfile := some [("version", "1.0.0"), ("channel", "stable")],
    downloadOk := true, shaDownloadOk := true, shaText := "", assetDigest := "",
    extractOk := true, stageOk := true, swapRenameOk := true, swapFallbackOk := true }

/-- Default arguments of a run. -/
def argsX : Args :=
  { app_name := "demo", asset_pattern := "{app}-{os}-{arch}.zip",
    include_prereleases := false, allow_downgrade := false, dry_run := false }

/-- The same arguments with `--dry-run`. -/
def argsDry : Args :=
  { app_name := "demo", asset_pattern := "{app}-{os}-{arch}.zip",
    include_prereleases := false, allow_downgrade := false, dry_run := true }

/-- `envX` with both the rename swap and its copy fallback failing. -/
def envSwapFail : Env :=
  { envX with swapRenameOk := false, swapFallbackOk := false }

/-- `envX` already at the released version. -/
def envUpToDate : Env :=
  { envX with vfile := some [("version", "1.2.0")] }

/-- `envX` with the platform asset absent from the release. -/
def envNoAsset : Env :=
  { envX with releases := [relNoAsset] }

/-- `envX` with the version file missing or unreadable. -/
def envNoVer : Env :=
  { envX with vfile := none }

-- ---------- Theorems ----------

/-- Characterisation of Python tuple `<` on parsed versions. -/
theorem tupleLt_iff (x y : SemVer) :
    tupleLt x y = true ↔
      (x.1 < y.1 ∨ (x.1 = y.1 ∧ (x.2.1 < y.2.1 ∨ (x.2.1 = y.2.1 ∧ x.2.2 < y.2.2)))) := by
  obtain ⟨a1, b1, c1⟩ := x
  obtain ⟨a2, b2, c2⟩ := y
  simp [tupleLt]

theorem tupleLt_irrefl (x : SemVer) : tupleLt x x = false := by
  rw [← Bool.not_eq_true, tupleLt_iff]
  omega

theorem tupleLt_asymm {x y : SemVer} (h : tupleLt x y = true) : tupleLt y x = false := by
  rw [tupleLt_iff] at h
  rw [← Bool.not_eq_true, tupleLt_iff]
  omega

theorem relDesc_total (a b : Release) : (relDesc a b || relDesc b a) = true := by
  unfold relDesc
  rcases h : tupleLt (relKey a) (relKey b) with _ | _
  · simp
  · simp [tupleLt_asymm h]

theorem relDesc_trans (a b c : Release) (h1 : relDesc a b = true) (h2 : relDesc b c = true) :
    relDesc a c = true := by
  unfold relDesc at *
  simp only [Bool.not_eq_true', ← Bool.not_eq_true] at *
  rw [tupleLt_iff] at *
  omega

theorem compare_versions_self (a : String) : compare_versions a a = 0 := by
  unfold compare_versions
  simp [tupleLt_irrefl]

theorem parseSemverList_cons_ne {c : Char} (l : List Char) (h : c ≠ 'v') :
    parseSemverList (c :: l) = parseCore (c :: l) := by
  rw [parseSemverList.eq_def]
  split
  · rename_i rest heq
    injection heq with h1 h2
    exact absurd h1 h
  · rfl

theorem parseCore_not_digit {c : Char} (l : List Char) (h : c.isDigit = false) :
    parseCore (c :: l) = (-1, -1, -1) := by
  unfold parseCore matchMMP matchMM
  simp [List.span_eq_take_drop, List.takeWhile, h]

-- ---------- Claim theorems ----------

/-- C7: for all version strings `a` and `b`, `compare_versions a b`
is the negation of `compare_versions b a`, and comparing a string with
itself yields `0` (equal). -/
theorem compare_versions_antisymm_and_refl (a b : String) :
    compare_versions a b = -(compare_versions b a) ∧ compare_versions a a = 0 := by
  refine ⟨?_, compare_versions_self a⟩
  unfold compare_versions
  cases h1 : tupleLt (parse_semver b) (parse_semver a) <;>
    cases h2 : tupleLt (parse_semver a) (parse_semver b)
  · norm_num
  · norm_num
  · norm_num
  · have h3 := tupleLt_asymm h2
    rw [h1] at h3
    exact absurd h3 (by simp)

/-- C8 counterexample: `x` is a non-digit prefix character, yet
`parse_semver "x1.2.3"` differs from `parse_semver "1.2.3"` — only a
leading `v` is stripped. -/
theorem parse_semver_prefix_counterexample :
    ('x'.isDigit = false) ∧ parse_semver "x1.2.3" ≠ parse_semver "1.2.3" := by decide

/-- C8 (amended): only the specific prefix character `v` is stripped before
parsing: prefixing a tag whose first character is a digit with `v` leaves
its parse unchanged, while prefixing with any other non-digit character
makes the tag unparseable, yielding the lowest value `(-1, -1, -1)`. -/
theorem parse_semver_prefix_amended (s : String) (c : Char)
    (hc : s.data.head? = some c) (hd : c.isDigit = true) :
    parse_semver ("v" ++ s) = parse_semver s ∧
    ∀ p : Char, p.isDigit = false → p ≠ 'v' →
      parseSemverList (p :: s.data) = (-1, -1, -1) := by
  constructor
  · have hdata : ("v" ++ s).data = 'v' :: s.data := by
      rw [String.data_append]
      rfl
    unfold parse_semver
    rw [hdata]
    obtain ⟨t, ht⟩ : ∃ t, s.data = c :: t := by
      cases hs : s.data with
      | nil => rw [hs] at hc; simp at hc
      | cons x xs =>
        rw [hs] at hc
        simp at hc
        exact ⟨xs, by rw [hc]⟩
    have hcv : c ≠ 'v' := by
      intro h
      rw [h] at hd
      simp at hd
    rw [ht, parseSemverList_cons_ne t hcv]
    rfl
  · intro p hp hpv
    rw [parseSemverList_cons_ne s.data hpv]
    exact parseCore_not_digit s.data hp

/-- C8 amended, witnessed at `s = "1.2.3"`, `c = '1'`, other prefix `x`. -/
theorem parse_semver_prefix_amended_witness :
    parse_semver ("v" ++ "1.2.3") = parse_semver "1.2.3" ∧
    parseSemverList ('x' :: "1.2.3".data) = (-1, -1, -1) :=
  ⟨(parse_semver_prefix_amended "1.2.3" '1' (by decide) (by decide)).1,
    (parse_semver_prefix_amended "1.2.3" '1' (by decide) (by decide)).2 'x'
      (by decide) (by decide)⟩

/-- Pointwise behaviour of `rollback_from_backup` when the backup is
absent: the live directory is deleted and nothing else changes. -/
theorem rollback_from_backup_no_backup_pointwise (b a : String) (fs : FsState)
    (h : fs b = none) (q : String) :
    rollback_from_backup b a fs q = if q = a then none else fs q := by
  have hfs1 : ∀ p, (if (fs a).isSome then removeTree fs a else fs) p
      = if p = a then none else fs p := by
    intro p
    by_cases hfa : (fs a).isSome
    · simp only [hfa, if_true]
      rfl
    · simp only [hfa, if_false]
      by_cases hp : p = a
      · subst hp
        cases hv : fs p with
        | none => simpa using hv
        | some v => rw [hv] at hfa; simp at hfa
      · simp [hp]
  have hfs1b : (if (fs a).isSome then removeTree fs a else fs) b = none := by
    rw [hfs1 b]
    by_cases hba : b = a <;> simp [hba, h]
  simp only [rollback_from_backup, hfs1b, Option.isSome_none, Bool.false_eq_true,
    if_false]
  exact hfs1 q

/-- C2 counterexample: with no backup present, `rollback_from_backup`
is not a no-op — it deletes the live application directory. -/
theorem rollback_from_backup_counterexample :
    fsLiveOnly "app.backup-1" = none ∧ fsLiveOnly "app" = some 1 ∧
    rollback_from_backup "app.backup-1" "app" fsLiveOnly "app" = none := by
  refine ⟨rfl, rfl, ?_⟩
  rw [rollback_from_backup_no_backup_pointwise "app.backup-1" "app" fsLiveOnly rfl "app"]
  rfl

/-- C2 (amended): when the backup directory does not exist,
`rollback_from_backup` restores nothing but still deletes whatever occupies
the live application directory (it does not leave it unchanged); the call
is idempotent. -/
theorem rollback_from_backup_no_backup (b a : String) (fs : FsState)
    (h : fs b = none) :
    (∀ q, rollback_from_backup b a fs q = if q = a then none else fs q) ∧
    rollback_from_backup b a (rollback_from_backup b a fs) =
      rollback_from_backup b a fs := by
  refine ⟨rollback_from_backup_no_backup_pointwise b a fs h, ?_⟩
  have hb : rollback_from_backup b a fs b = none := by
    rw [rollback_from_backup_no_backup_pointwise b a fs h b]
    by_cases hba : b = a <;> simp [hba, h]
  funext q
  rw [rollback_from_backup_no_backup_pointwise b a _ hb q,
    rollback_from_backup_no_backup_pointwise b a fs h q]
  by_cases hq : q = a <;> simp [hq]

/-- C2 amended, witnessed on `fsLiveOnly` at the live path. -/
theorem rollback_from_backup_no_backup_witness :
    (rollback_from_backup "app.backup-1" "app" fsLiveOnly "app" =
      if "app" = "app" then none else fsLiveOnly "app") ∧
    rollback_from_backup "app.backup-1" "app"
        (rollback_from_backup "app.backup-1" "app" fsLiveOnly) =
      rollback_from_backup "app.backup-1" "app" fsLiveOnly :=
  ⟨(rollback_from_backup_no_backup "app.backup-1" "app" fsLiveOnly rfl).1 "app",
    (rollback_from_backup_no_backup "app.backup-1" "app" fsLiveOnly rfl).2⟩

theorem wsNotHex {c : Char} (h : c.isWhitespace = true) : isHexChar c = false := by
  have hc : c = ' ' ∨ c = '\t' ∨ c = '\x0d' ∨ c = '\n' := by
    simpa [Char.isWhitespace, Bool.or_eq_true, decide_eq_true_eq, or_assoc] using h
  rcases hc with h1 | h1 | h1 | h1 <;> subst h1 <;> decide

theorem findHex64_cons (c : Char) (cs : List Char) :
    findHex64 (c :: cs) =
      match hexWindow (c :: cs) with
      | some w => some w
      | none => findHex64 cs := rfl

theorem hexWindow_cons_not_hex {c : Char} (cs : List Char) (h : isHexChar c = false) :
    hexWindow (c :: cs) = none := by
  unfold hexWindow
  rw [show (64 : Nat) = 63 + 1 from rfl, List.take_succ_cons]
  simp [h]

theorem findHex64_cons_not_hex {c : Char} (cs : List Char) (h : isHexChar c = false) :
    findHex64 (c :: cs) = findHex64 cs := by
  simp only [findHex64, hexWindow_cons_not_hex cs h]

theorem findHex64_all_not_hex (cs : List Char) (h : ∀ c ∈ cs, isHexChar c = false) :
    findHex64 cs = none := by
  induction cs with
  | nil => rfl
  | cons c t ih =>
    rw [findHex64_cons_not_hex t (h c (List.mem_cons_self c t))]
    exact ih (fun x hx => h x (List.mem_cons_of_mem c hx))

theorem findHex64_append_not_hex (cs ws : List Char)
    (h : ∀ c ∈ ws, isHexChar c = false) :
    findHex64 (cs ++ ws) = findHex64 cs := by
  induction cs with
  | nil =>
    rw [List.nil_append]
    exact findHex64_all_not_hex ws h
  | cons c t ih =>
    by_cases hlen : 64 ≤ (c :: t).length
    · have hwin : hexWindow (c :: (t ++ ws)) = hexWindow (c :: t) := by
        rw [← List.cons_append]
        unfold hexWindow
        rw [List.take_append_of_le_length hlen]
      rw [List.cons_append, findHex64_cons, findHex64_cons, hwin]
      cases hw : hexWindow (c :: t) with
      | some w => rfl
      | none => exact ih
    · push_neg at hlen
      have h1 : hexWindow (c :: t) = none := by
        unfold hexWindow
        rw [List.take_of_length_le (Nat.le_of_lt hlen)]
        simp only [Bool.and_eq_true, decide_eq_true_eq]
        rw [if_neg]
        intro hcon
        omega
      have h2 : hexWindow ((c :: t) ++ ws) = none := by
        unfold hexWindow
        rw [List.take_append_eq_append_take,
          List.take_of_length_le (Nat.le_of_lt hlen)]
        cases hws : List.take (64 - (c :: t).length) ws with
        | nil =>
          rw [List.append_nil]
          simp only [Bool.and_eq_true, decide_eq_true_eq]
          rw [if_neg]
          intro hcon
          omega
        | cons d ds =>
          have hd : isHexChar d = false := by
            apply h d
            have hmem : d ∈ List.take (64 - (c :: t).length) ws := by
              rw [hws]
              exact List.mem_cons_self d ds
            exact List.mem_of_mem_take hmem
          rw [if_neg]
          intro hcon
          rcases Bool.and_eq_true_iff.mp hcon with ⟨_, hall⟩
          have := List.all_eq_true.mp hall d
            (List.mem_append_right _ (List.mem_cons_self d ds))
          rw [hd] at this
          exact Bool.false_ne_true this
      rw [List.cons_append] at h2
      rw [List.cons_append, findHex64_cons, findHex64_cons, h1, h2]
      exact ih

theorem findHex64_dropWhile_ws (cs : List Char) :
    findHex64 (cs.dropWhile Char.isWhitespace) = findHex64 cs := by
  induction cs with
  | nil => rfl
  | cons c t ih =>
    by_cases hc : c.isWhitespace
    · rw [List.dropWhile_cons_of_pos hc, ih,
        findHex64_cons_not_hex t (wsNotHex hc)]
    · rw [List.dropWhile_cons_of_neg hc]

theorem findHex64_pyStrip (cs : List Char) :
    findHex64 (pyStrip cs) = findHex64 cs := by
  unfold pyStrip
  rw [← findHex64_dropWhile_ws cs]
  generalize cs.dropWhile Char.isWhitespace = l
  have hsplit : (l.reverse.dropWhile Char.isWhitespace).reverse ++
      (l.reverse.takeWhile Char.isWhitespace).reverse = l := by
    rw [← List.reverse_append, List.takeWhile_append_dropWhile, List.reverse_reverse]
  conv_rhs => rw [← hsplit]
  rw [findHex64_append_not_hex]
  intro c hc
  exact wsNotHex (List.mem_takeWhile_imp (List.mem_reverse.mp hc))

theorem findHex64_append_left_not_hex (pre rest : List Char)
    (h : ∀ c ∈ pre, isHexChar c = false) :
    findHex64 (pre ++ rest) = findHex64 rest := by
  induction pre with
  | nil => rfl
  | cons c t ih =>
    rw [List.cons_append, findHex64_cons_not_hex _ (h c (List.mem_cons_self c t))]
    exact ih (fun x hx => h x (List.mem_cons_of_mem c hx))

theorem findHex64_starts_with_token (D post : List Char)
    (hlen : D.length = 64) (hhex : D.all isHexChar = true) :
    findHex64 (D ++ post) = some D := by
  have hwin : hexWindow (D ++ post) = some D := by
    unfold hexWindow
    rw [List.take_append_of_le_length (by omega), List.take_of_length_le (by omega)]
    simp [hlen, hhex]
  cases D with
  | nil => simp at hlen
  | cons d ds =>
    rw [List.cons_append] at hwin ⊢
    rw [findHex64_cons, hwin]

/-- C6 counterexample: the descriptor `dB ++ " " ++ dA` contains the file's
digest `dA` verbatim, yet verification fails with a mismatch, because the
regex search returns the *first* 64-hex token (`dB`), not an arbitrary
occurrence of the digest. -/
theorem verify_sha256_counterexample :
    containsSub dA.data (dB ++ " " ++ dA).data = true ∧
    verify_sha256_from_text (dB ++ " " ++ dA) dA = .mismatch dB dA := by
  constructor
  · decide
  · decide

/-- C6 (amended): verification is decided by the *first* 64-hex-digit token
of the descriptor: when the descriptor is hex-free text followed by a
64-hex token `D` (and anything after), verification succeeds iff the file's
digest equals `D` lowercased, and otherwise fails with an error carrying
both the expected (`D` lowercased) and actual digests; a descriptor with no
64-hex-digit token fails with a format error. -/
theorem verify_sha256_amended (pre D post actual : String)
    (hpre : ∀ c ∈ pre.data, isHexChar c = false)
    (hlen : D.data.length = 64)
    (hhex : D.data.all isHexChar = true) :
    (actual = String.mk (D.data.map Char.toLower) →
      verify_sha256_from_text (pre ++ D ++ post) actual = .ok) ∧
    (actual ≠ String.mk (D.data.map Char.toLower) →
      verify_sha256_from_text (pre ++ D ++ post) actual =
        .mismatch (String.mk (D.data.map Char.toLower)) actual) ∧
    (∀ txt : String, findHex64 txt.data = none →
      verify_sha256_from_text txt actual = .formatError) := by
  have hfind : findHex64 (pyStrip (pre ++ D ++ post).data) = some D.data := by
    rw [findHex64_pyStrip]
    have hdata : (pre ++ D ++ post).data = pre.data ++ (D.data ++ post.data) := by
      rw [String.data_append, String.data_append, List.append_assoc]
    rw [hdata, findHex64_append_left_not_hex _ _ hpre,
      findHex64_starts_with_token D.data post.data hlen hhex]
  refine ⟨?_, ?_, ?_⟩
  · intro heq
    unfold verify_sha256_from_text
    rw [hfind]
    simp [heq]
  · intro hne
    unfold verify_sha256_from_text
    rw [hfind]
    simp [hne]
  · intro txt hnone
    unfold verify_sha256_from_text
    rw [findHex64_pyStrip, hnone]

/-- C6 amended, witnessed on the descriptor `"zz: " ++ dA ++ "  app.zip"`:
verification succeeds for a file whose digest is `dA`, fails with both
digests in the error for a file whose digest is `dB`, and a hex-free
descriptor is a format error. -/
theorem verify_sha256_amended_witness :
    verify_sha256_from_text ("zz: " ++ dA ++ "  app.zip") dA = .ok ∧
    verify_sha256_from_text ("zz: " ++ dA ++ "  app.zip") dB =
      .mismatch (String.mk (dA.data.map Char.toLower)) dB ∧
    verify_sha256_from_text "no hex here" dA = .formatError :=
  ⟨(verify_sha256_amended "zz: " dA "  app.zip" dA (by decide) (by decide)
      (by decide)).1 (by decide),
    (verify_sha256_amended "zz: " dA "  app.zip" dB (by decide) (by decide)
      (by decide)).2.1 (by decide),
    (verify_sha256_amended "zz: " dA "  app.zip" dA (by decide) (by decide)
      (by decide)).2.2 "no hex here" (by decide)⟩

/-- C3: `get_latest_release` filters out all drafts, filters out prereleases
unless requested, and returns a surviving release whose tag is maximal
under the version ordering; it returns `none` exactly when no release
survives the filtering. -/
theorem get_latest_release_spec (releases : List Release) (inc : Bool) :
    (get_latest_release releases inc = none ↔ releaseCandidates releases inc = []) ∧
    (∀ r, get_latest_release releases inc = some r →
      r ∈ releases ∧ r.draft = false ∧ (inc = true ∨ r.prerelease = false) ∧
      ∀ r' ∈ releaseCandidates releases inc,
        tupleLt (relKey r) (relKey r') = false) := by
  have hperm := List.mergeSort_perm (releaseCandidates releases inc) relDesc
  constructor
  · unfold get_latest_release
    by_cases h : (releaseCandidates releases inc).isEmpty
    · rw [if_pos h]
      simp [List.isEmpty_iff.mp h]
    · rw [if_neg h]
      have hne : releaseCandidates releases inc ≠ [] := by
        intro hcon
        exact h (List.isEmpty_iff.mpr hcon)
      rw [List.head?_eq_none_iff]
      constructor
      · intro hms
        rw [hms] at hperm
        exact absurd hperm.symm.eq_nil hne
      · intro hcon
        exact absurd hcon hne
  · intro r hr
    unfold get_latest_release at hr
    by_cases h : (releaseCandidates releases inc).isEmpty
    · rw [if_pos h] at hr
      exact absurd hr (by simp)
    · rw [if_neg h] at hr
      cases hL : (releaseCandidates releases inc).mergeSort relDesc with
      | nil =>
        rw [hL] at hr
        exact absurd hr (by simp)
      | cons x xs =>
        rw [hL] at hr
        have hxr : x = r := by simpa using hr
        subst hxr
        have hsorted := List.sorted_mergeSort relDesc_trans relDesc_total
          (releaseCandidates releases inc)
        rw [hL, List.pairwise_cons] at hsorted
        have hmem : x ∈ releaseCandidates releases inc := by
          refine hperm.mem_iff.mp ?_
          rw [hL]
          exact List.mem_cons_self x xs
        have hfil := List.mem_filter.mp hmem
        have hpred := hfil.2
        simp only [Bool.and_eq_true, Bool.or_eq_true, Bool.not_eq_true'] at hpred
        refine ⟨hfil.1, hpred.1, ?_, ?_⟩
        · rcases hpred.2 with hp | hp
          · exact Or.inl hp
          · exact Or.inr hp
        · intro r' hr'
          have hr'L : r' ∈ x :: xs := by
            rw [← hL]
            exact hperm.mem_iff.mpr hr'
          rcases List.mem_cons.mp hr'L with heq | htail
          · rw [heq]
            exact tupleLt_irrefl (relKey x)
          · have hd := hsorted.1 r' htail
            unfold relDesc at hd
            simpa using hd

unseal List.merge List.mergeSort in
/-- C3, witnessed on the one-element release list `[relX]`. -/
theorem get_latest_release_spec_witness :
    relX ∈ [relX] ∧ relX.draft = false ∧ (false = true ∨ relX.prerelease = false) ∧
    tupleLt (relKey relX) (relKey relX) = false := by
  have T := (get_latest_release_spec [relX] false).2 relX (by decide)
  exact ⟨T.1, T.2.1, T.2.2.1, T.2.2.2 relX (by decide)⟩

-- ---------- Orchestrator theorems ----------

theorem lookupA_setKey_self (m : List (String × String)) (k v : String) :
    lookupA (setKey m k v) k = some v := by
  induction m with
  | nil => simp [setKey, lookupA]
  | cons p t ih =>
    obtain ⟨k', w⟩ := p
    by_cases h : k' = k
    · simp [setKey, h, lookupA]
    · simp [setKey, h, lookupA, ih]

theorem lookupA_setKey_ne (m : List (String × String)) (k v k' : String) (h : k' ≠ k) :
    lookupA (setKey m k v) k' = lookupA m k' := by
  induction m with
  | nil =>
    simp only [setKey, lookupA]
    rw [if_neg (fun hc => h hc.symm)]
  | cons p t ih =>
    obtain ⟨k0, w⟩ := p
    by_cases h0 : k0 = k
    · subst h0
      simp only [setKey, if_pos rfl, lookupA]
      rw [if_neg (fun hc => h hc.symm), if_neg (fun hc => h hc.symm)]
    · by_cases h1 : k0 = k'
      · subst h1
        simp [setKey, h0, lookupA]
      · simp [setKey, h0, lookupA, h1, ih]

/-- Any run that returns `True` went through the full install pipeline: a
release was selected, the swap succeeded, and the version file was rewritten
by merging the stripped tag into the previously read record. -/
theorem run_update_success_shape (env : Env) (a : Args)
    (h : (run_update env a).ret = .returned true) :
    ∃ release, get_latest_release env.releases a.include_prereleases = some release ∧
      run_update env a =
        { outcome := .installed, ret := .returned true, downloadAttempted := true,
          swapSucceeded := true, wroteVersion := true,
          vfileAfter := some (setKey (env.vfile.getD []) "version"
            (lstripV (orDefault release.tag_name "0.0.0"))) } := by
  cases heqR : get_latest_release env.releases a.include_prereleases with
  | none =>
    exfalso
    simp [run_update, heqR] at h
  | some release =>
    refine ⟨release, rfl, ?_⟩
    simp only [run_update, heqR] at h ⊢
    repeat' split at h
    all_goals try simp_all
    all_goals (split_ifs <;> simp_all)

/-- C1: on every run, the persisted version state is written iff the swap
fully succeeded, and on every path where the swap did not succeed (skip,
dry-run, download/verify/extract/stage/swap failure) the version file is
left untouched. -/
theorem run_update_persist_iff_swap (env : Env) (a : Args) :
    (run_update env a).wroteVersion = (run_update env a).swapSucceeded ∧
    ((run_update env a).swapSucceeded = false →
      (run_update env a).vfileAfter = env.vfile ∧
      (run_update env a).wroteVersion = false) := by
  simp only [run_update]
  repeat' split
  all_goals simp_all

unseal List.merge List.mergeSort in
/-- C1, witnessed on a run whose swap (and fallback) fails. -/
theorem run_update_persist_iff_swap_witness :
    (run_update envSwapFail argsX).vfileAfter = envSwapFail.vfile ∧
    (run_update envSwapFail argsX).wroteVersion = false :=
  (run_update_persist_iff_swap envSwapFail argsX).2 (by decide)

/-- C9: a successful update rewrites the version file by merging
`version := tag.lstrip("v")` into the pre-existing record: reading the new
record back yields the new version string, and every other field is
preserved unchanged. -/
theorem run_update_merges_record (env : Env) (a : Args) (m : List (String × String))
    (t : String)
    (hfile : env.vfile = some m)
    (htag : candidateTag env a = some t)
    (hsucc : (run_update env a).ret = .returned true) :
    (run_update env a).vfileAfter = some (setKey m "version" (lstripV t)) ∧
    lookupA (setKey m "version" (lstripV t)) "version" = some (lstripV t) ∧
    ∀ k, k ≠ "version" → lookupA (setKey m "version" (lstripV t)) k = lookupA m k := by
  obtain ⟨release, heqR, hshape⟩ := run_update_success_shape env a hsucc
  have ht : orDefault release.tag_name "0.0.0" = t := by
    unfold candidateTag at htag
    rw [heqR] at htag
    simpa using htag
  refine ⟨?_, lookupA_setKey_self m "version" (lstripV t),
    fun k hk => lookupA_setKey_ne m "version" (lstripV t) k hk⟩
  rw [hshape]
  simp [hfile, ht]

unseal List.merge List.mergeSort in
/-- C9, witnessed on a successful run: the unrelated `channel` field
survives the version-only rewrite. -/
theorem run_update_merges_record_witness :
    (run_update envX argsX).vfileAfter =
      some (setKey [("version", "1.0.0"), ("channel", "stable")] "version"
        (lstripV "v1.2.0")) ∧
    lookupA (setKey [("version", "1.0.0"), ("channel", "stable")] "version"
        (lstripV "v1.2.0")) "version" = some (lstripV "v1.2.0") ∧
    lookupA (setKey [("version", "1.0.0"), ("channel", "stable")] "version"
        (lstripV "v1.2.0")) "channel" =
      lookupA [("version", "1.0.0"), ("channel", "stable")] "channel" := by
  have T := run_update_merges_record envX argsX
    [("version", "1.0.0"), ("channel", "stable")] "v1.2.0"
    (by decide) (by decide) (by decide)
  exact ⟨T.1, T.2.1, T.2.2 "channel" (by decide)⟩

unseal List.merge List.mergeSort in
/-- C4 counterexample: a dry run against a strictly newer release returns a
not-installed outcome without attempting any download, although a candidate
release exists whose version is strictly newer than the local one — so the
three listed conditions are not the only such cases. -/
theorem run_update_skip_counterexample :
    ((run_update envX argsDry).ret = .returned false ∧
      (run_update envX argsDry).downloadAttempted = false) ∧
    candidateTag envX argsDry = some "v1.2.0" ∧
    compare_versions "v1.2.0" (localVersion envX) = 1 := by decide

/-- C4 (amended): provided dry-run is not set, `run_update` returns a
not-installed outcome without attempting any download exactly when no
candidate release is found, or the candidate version compares equal to the
local version, or it compares older and downgrades are not allowed; in every
other case it either attempts the download or raises (missing asset). -/
theorem run_update_skip_amended (env : Env) (a : Args) (hdry : a.dry_run = false) :
    ((run_update env a).ret = .returned false ∧
      (run_update env a).downloadAttempted = false)
      ↔ (candidateTag env a = none ∨
          ∃ t, candidateTag env a = some t ∧
            (compare_versions t (localVersion env) = 0 ∨
              (compare_versions t (localVersion env) < 0 ∧
                a.allow_downgrade = false))) := by
  cases heqR : get_latest_release env.releases a.include_prereleases with
  | none => simp [run_update, candidateTag, heqR]
  | some release =>
    simp only [run_update, candidateTag, localVersion, heqR, Option.map_some']
    simp only [Option.some.injEq, false_or, exists_eq_left']
    repeat' split
    all_goals simp_all

unseal List.merge List.mergeSort in
/-- C4 amended, witnessed on a run already at the released version: it skips
without downloading, and the skip condition holds. -/
theorem run_update_skip_amended_witness :
    (run_update envUpToDate argsX).ret = .returned false ∧
    (run_update envUpToDate argsX).downloadAttempted = false :=
  (run_update_skip_amended envUpToDate argsX rfl).mpr
    (Or.inr ⟨"v1.2.0", by decide, Or.inl (by decide)⟩)

/-- C5: when the expected platform asset is absent from the chosen release
(and the version gate decided to proceed), the run raises a
`FileNotFoundError` naming the attempted asset and listing the release's
actual asset names; nothing is installed and no version state is written. -/
theorem run_update_asset_missing (env : Env) (a : Args) (r : Release)
    (hrel : get_latest_release env.releases a.include_prereleases = some r)
    (hgate : ¬(compare_versions (orDefault r.tag_name "0.0.0") (localVersion env) < 0 ∧
        a.allow_downgrade = false))
    (hne : compare_versions (orDefault r.tag_name "0.0.0") (localVersion env) ≠ 0)
    (hasset : find_asset r (assetNameOf env a) = none) :
    (run_update env a).ret =
      .raised (.notFound (assetNameOf env a) (r.assets.map (fun x => x.name))) ∧
    (run_update env a).wroteVersion = false := by
  simp only [localVersion] at hgate hne
  simp only [assetNameOf] at hasset ⊢
  simp only [run_update, hrel]
  rw [if_neg hgate, if_neg hne, hasset]
  exact ⟨rfl, rfl⟩

unseal List.merge List.mergeSort in
/-- C5, witnessed on a release carrying only `other.zip`. -/
theorem run_update_asset_missing_witness :
    (run_update envNoAsset argsX).ret =
      .raised (.notFound (assetNameOf envNoAsset argsX)
        (relNoAsset.assets.map (fun x => x.name))) ∧
    (run_update envNoAsset argsX).wroteVersion = false :=
  run_update_asset_missing envNoAsset argsX relNoAsset (by decide) (by decide)
    (by decide) (by decide)

/-- C10: when the version file is missing, unreadable, or lacks a `version`
field, the run treats the local version as `"0.0.0"`; a candidate whose tag
compares strictly greater than `0.0.0` passes the version gate (neither
skip applies), while a candidate tagged `"0.0.0"` is skipped as already up
to date. -/
theorem run_update_missing_version_state (env : Env) (a : Args)
    (hnov : lookupA (env.vfile.getD []) "version" = none) :
    localVersion env = "0.0.0" ∧
    ∀ t, candidateTag env a = some t →
      ((compare_versions t "0.0.0" = 1 →
          (run_update env a).outcome ≠ .skipOlder ∧
          (run_update env a).outcome ≠ .upToDate) ∧
        (t = "0.0.0" → (run_update env a).outcome = .upToDate)) := by
  have hloc : localVersion env = "0.0.0" := by
    unfold localVersion
    rw [hnov]
    rfl
  refine ⟨hloc, ?_⟩
  intro t htag
  cases heqR : get_latest_release env.releases a.include_prereleases with
  | none =>
    unfold candidateTag at htag
    rw [heqR] at htag
    simp at htag
  | some release =>
    have ht : orDefault release.tag_name "0.0.0" = t := by
      unfold candidateTag at htag
      rw [heqR] at htag
      simpa using htag
    constructor
    · intro hcmp
      constructor <;>
        · simp only [run_update, heqR, hnov, Option.getD_none, ht, hcmp]
          rw [if_neg (by norm_num), if_neg (by norm_num)]
          repeat' split
          all_goals try simp
          all_goals
            rename_i heq2
            repeat' split at heq2
            all_goals (cases heq2 <;> simp)
    · intro ht0
      subst ht0
      simp only [run_update, heqR, hnov, Option.getD_none, ht]
      have h1 : ¬(compare_versions "0.0.0" "0.0.0" < 0 ∧ a.allow_downgrade = false) := by
        rw [compare_versions_self]
        norm_num
      rw [if_neg h1, if_pos (compare_versions_self "0.0.0")]

unseal List.merge List.mergeSort in
/-- C10, witnessed on a run with no version file: the tag `v1.2.0` parses
above `0.0.0` and the run is not skipped by the version gate. -/
theorem run_update_missing_version_state_witness :
    (run_update envNoVer argsX).outcome ≠ .skipOlder ∧
    (run_update envNoVer argsX).outcome ≠ .upToDate :=
  ((run_update_missing_version_state envNoVer argsX (by decide)).2 "v1.2.0"
    (by decide)).1 (by decide)

end Updater
